import Mathlib

/-!
Shallow embedding of `src/competitor_inci_explorer.py` (Competitor INCI
Explorer, a Streamlit app over four Google-Sheets tables).

Modelling conventions:
* Each sheet tab is a list of typed rows, in sheet order, as produced by
  `load_tab`: the columns named in the `pd.to_numeric` coercion
  pass (`id`, `brand_id`, `product_id`, `ingredient_id`) are `Option Int`
  (`none` = NaN after coercion); every other column is a `String`.
* Python string primitives (`str.strip`, `str.lower`, `str.split`,
  `str.replace`, substring test `in`) are re-implemented structurally on
  `List Char` so that all definitions evaluate by kernel reduction.
* The save handler is the `try` suite of the `if submitted:` block
  (lines 185-199): the `# Ensure brand` step is the bare `...` (Ellipsis)
  expression, a no-op; the suite then tokenizes the INCI text, clears the
  read cache and reports success.  All its operations are total, so the
  `except` clause never fires.
* The ingredient-linking code (lines 206-245) is indented inside the first
  `except Exception` suite (after line 202), so it is dead code on the
  normal save path.  It is embedded separately (`runLinkingBlock`).  Its
  join-row literal reads the variable `next_pid` (lines 230 and 238),
  which is bound nowhere in the program; the block is therefore
  parameterized by the binding status of `next_pid` (`Option Int`) and the
  block as the program runs it is the instantiation at `none`, where evaluating
  the join-row dict raises `NameError`.
-/

/-! ## Python string primitives -/

/-- Python `str.strip` whitespace set (ASCII part): space, tab, newline,
carriage return, vertical tab, form feed. -/
def isPyWS (c : Char) : Bool :=
  c == ' ' || c == '\t' || c == '\n' || c == '\r' || c == '\x0b' || c == '\x0c'

/-- `str.strip()` on the character list: drop whitespace from both ends. -/
def pyStripList (l : List Char) : List Char :=
  ((l.dropWhile isPyWS).reverse.dropWhile isPyWS).reverse

/-- `str.strip()`. -/
def pyStrip (s : String) : String := String.mk (pyStripList s.data)

/-- `str.lower()` (ASCII; every name in the data of the program and
`FUNCTION_MAP` keys is ASCII). -/
def pyLower (s : String) : String := String.mk (s.data.map Char.toLower)

/-- Python `sep in s` substring test, for a single-character-free needle:
some suffix of the haystack starts with the needle. -/
def pyContains (needle : List Char) : List Char → Bool
  | [] => needle.isEmpty
  | c :: rest => needle.isPrefixOf (c :: rest) || pyContains needle rest

/-- Python `s.split(sep)` for a one-character separator: splitting an empty
string yields `[""]`, and separators at the ends yield empty pieces. -/
def splitOnChar (sep : Char) : List Char → List (List Char)
  | [] => [[]]
  | c :: rest =>
    let r := splitOnChar sep rest
    if c == sep then [] :: r
    else
      match r with
      | h :: t => (c :: h) :: t
      | [] => [[c]]

/-- Lexicographic code-point order on character lists (Python / pandas
string comparison). -/
def listLe : List Char → List Char → Bool
  | [], _ => true
  | _ :: _, [] => false
  | a :: as, b :: bs =>
    if a.toNat < b.toNat then true
    else if b.toNat < a.toNat then false
    else listLe as bs

/-! ## Table rows (schema of `TEMPLATE`, after `load_tab` coercion) -/

/-- A row of the `Brands` tab. -/
structure BrandRow where
  id : Option Int
  name : String
deriving Repr, DecidableEq

/-- A row of the `Products` tab. -/
structure ProductRow where
  id : Option Int
  brand_id : Option Int
  product_name : String
  category : String
  product_type : String
  notes : String
deriving Repr, DecidableEq

/-- A row of the `Ingredients` tab. -/
structure IngRow where
  id : Option Int
  inci_name : String
  default_function : String
  cas : String
deriving Repr, DecidableEq

/-- A row of the `Product_Ingredients` tab. -/
structure PIRow where
  id : Option Int
  product_id : Option Int
  ingredient_id : Option Int
  inci_name_raw : String
  function_override : String
  percentage : String
  notes : String
deriving Repr, DecidableEq

/-- `FUNCTION_MAP` (lines 110-121), the static name-to-function table. -/
def FUNCTION_MAP : List (String × String) :=
  [("aqua", "Solvent"),
   ("water", "Solvent"),
   ("glycerin", "Humectant"),
   ("butylene glycol", "Humectant"),
   ("dimethicone", "Emollient"),
   ("cyclopentasiloxane", "Emollient"),
   ("titanium dioxide", "UV Filter"),
   ("ethylhexyl methoxycinnamate", "UV Filter"),
   ("phenoxyethanol", "Preservative"),
   ("ethylhexylglycerin", "Preservative booster")]

/-- `FUNCTION_MAP.get(name.lower(), "")`. -/
def functionFor (inci_norm : String) : String :=
  (FUNCTION_MAP.lookup (pyLower inci_norm)).getD ""

/-! ## `with_backoff` (lines 54-64) -/

/-- An exception raised by a backing-store call: whether it is a
`gspread.exceptions.APIError` (the only class the helper catches), and its
string rendering. -/
structure ApiErr where
  isAPIError : Bool
  msg : String
deriving Repr, DecidableEq

/-- The condition under which `with_backoff` retries: the exception is an
`APIError` and `"429" in str(e)`. -/
def is429 (e : ApiErr) : Bool := e.isAPIError && pyContains "429".data e.msg.data

/-- `with_backoff` (lines 54-64).  `fn n` is the outcome of the `n`-th call
of the wrapped operation.  Returns the overall outcome, the number of calls
made, and the total milliseconds slept (`time.sleep(1.5)` before the single
retry).  A non-`APIError`, or an `APIError` without `"429"`, is re-raised at
once; after a 429 the call is repeated exactly once and its outcome —
success or failure — is returned unprotected. -/
def with_backoff {α : Type} (fn : Nat → Except ApiErr α) :
    Except ApiErr α × Nat × Nat :=
  match fn 0 with
  | Except.ok a => (Except.ok a, 1, 0)
  | Except.error e =>
    if is429 e then (fn 1, 2, 1500)
    else (Except.error e, 1, 0)

/-! ## Tokenization (lines 189-194) -/

/-- The pieces of the raw INCI text: `inci_raw.replace("\r", "\n")`,
split on newlines, each line split on commas (before stripping). -/
def rawPieces (inci_raw : String) : List (List Char) :=
  (splitOnChar '\n' (inci_raw.data.map (fun c => if c == '\r' then '\n' else c))).flatMap
    (fun line => splitOnChar ',' line)

/-- Lines 189-194: split the pasted text on newlines (after turning `\r`
into `\n`), split each line on commas, strip each piece, keep the
non-empty ones in order. -/
def splitTokens (inci_raw : String) : List String :=
  (splitOnChar '\n' (inci_raw.data.map (fun c => if c == '\r' then '\n' else c))).flatMap
    (fun line =>
      (splitOnChar ',' line).filterMap (fun part =>
        if (pyStripList part).isEmpty then none else some (String.mk (pyStripList part))))

/-! ## The executed save handler (the `try` suite, lines 185-199) -/

/-- Everything the `try` suite of the save handler produces: the four
tables afterwards, whether `st.cache_data.clear()` ran, and the message
shown. -/
structure SaveOutcome where
  brands : List BrandRow
  products : List ProductRow
  ings : List IngRow
  pi : List PIRow
  cacheCleared : Bool
  message : String
deriving Repr, DecidableEq

/-- The `st.success` f-string of line 199. -/
def successMessage (prod_name : String) (n : Nat) : String :=
  "Saved product '" ++ prod_name ++ "' with " ++ toString n ++ " ingredients."

/-- The `try` suite of `if submitted:` (lines 185-199): the `# Ensure
brand` step is the bare `...` expression (a no-op); then the INCI text is
tokenized, the read cache cleared, and success reported with the token
count.  No row is appended to any table, and none of its operations can
raise, so the `except` clause (and the linking code indented under it)
never runs. -/
def saveHandler (brands : List BrandRow) (products : List ProductRow)
    (ings : List IngRow) (pi : List PIRow)
    (brand_name prod_name prod_cat prod_type prod_notes inci_raw : String) :
    SaveOutcome :=
  let tokens := splitTokens inci_raw
  { brands := brands
    products := products
    ings := ings
    pi := pi
    cacheCleared := true
    message := successMessage prod_name tokens.length }

/-! ## Claim theorems: C1, C2, C8 -/

/-- Claim C1: for every form submission, the executed save handler (the
`try` suite whose `# Ensure brand` step is the no-op `...`) leaves all
four tables unchanged — it appends no row to Brands, Products, Ingredients
or Product_Ingredients — while still clearing the read cache and
reporting success with the token count. -/
theorem saveHandler_frame_C1 :
    ∀ (brands : List BrandRow) (products : List ProductRow)
      (ings : List IngRow) (pi : List PIRow)
      (brand_name prod_name prod_cat prod_type prod_notes inci_raw : String),
      (saveHandler brands products ings pi brand_name prod_name prod_cat
        prod_type prod_notes inci_raw).brands = brands ∧
      (saveHandler brands products ings pi brand_name prod_name prod_cat
        prod_type prod_notes inci_raw).products = products ∧
      (saveHandler brands products ings pi brand_name prod_name prod_cat
        prod_type prod_notes inci_raw).ings = ings ∧
      (saveHandler brands products ings pi brand_name prod_name prod_cat
        prod_type prod_notes inci_raw).pi = pi ∧
      (saveHandler brands products ings pi brand_name prod_name prod_cat
        prod_type prod_notes inci_raw).cacheCleared = true ∧
      (saveHandler brands products ings pi brand_name prod_name prod_cat
        prod_type prod_notes inci_raw).message =
        successMessage prod_name (splitTokens inci_raw).length := by
  intros
  exact ⟨rfl, rfl, rfl, rfl, rfl, rfl⟩

/-- The Brands table for the claim C2 evaluation: an existing brand
`acme` with id 1. -/
def brandsC2 : List BrandRow := [{ id := some 1, name := "acme" }]

/-- Claim C2 (code bug): submitting brand `"Acme"`, which matches the
existing row `"acme"` up to case, is claimed to reuse brand id 1 for a new
Products row; the executed save handler in fact appends no Products row
(and no Brands row) at all — the `# Ensure brand` step is the bare `...`
and the brand/product-writing code is absent from the executed path. -/
theorem saveHandler_no_product_row_C2 :
    (saveHandler brandsC2 [] [] [] "Acme" "New Serum" "Skincare" "Serum" ""
      "Aqua, Glycerin").products = [] ∧
    (saveHandler brandsC2 [] [] [] "Acme" "New Serum" "Skincare" "Serum" ""
      "Aqua, Glycerin").brands = brandsC2 :=
  ⟨rfl, rfl⟩

/-- Claim C8: for every backing-store operation wrapped in `with_backoff`,
a 429 rate-limit `APIError` causes exactly one retry of the same call
(two calls total) after the fixed 1.5 s delay, whose outcome — including a
further failure — is returned unprotected; any other error propagates
immediately with a single call and no delay. -/
theorem with_backoff_retry_C8 :
    ∀ (α : Type) (fn : Nat → Except ApiErr α),
      (∀ e, fn 0 = Except.error e → is429 e = true →
        with_backoff fn = (fn 1, 2, 1500)) ∧
      (∀ e e2, fn 0 = Except.error e → is429 e = true →
        fn 1 = Except.error e2 → (with_backoff fn).1 = Except.error e2) ∧
      (∀ e, fn 0 = Except.error e → is429 e = false →
        with_backoff fn = (Except.error e, 1, 0)) := by
  intro α fn
  refine ⟨?_, ?_, ?_⟩
  · intro e h0 h429
    unfold with_backoff
    rw [h0]
    simp [h429]
  · intro e e2 h0 h429 h1
    unfold with_backoff
    rw [h0]
    simp [h429, h1]
  · intro e h0 h429
    unfold with_backoff
    rw [h0]
    simp [h429]

/-- A wrapped operation that hits the quota on every call. -/
def fn429 : Nat → Except ApiErr Unit :=
  fun _ => Except.error { isAPIError := true, msg := "APIError: [429]: Quota exceeded" }

/-- A wrapped operation that fails with a non-rate-limit error. -/
def fnAuth : Nat → Except ApiErr Unit :=
  fun _ => Except.error { isAPIError := false, msg := "PermissionError: access denied" }

/-- Witness for claim C8 at concrete operations: the persistent 429 caller
is called twice with the 1.5 s delay and still fails; the auth failure
propagates after a single call with no delay. -/
theorem with_backoff_retry_witness_C8 :
    with_backoff fn429 =
      (Except.error { isAPIError := true, msg := "APIError: [429]: Quota exceeded" }, 2, 1500) ∧
    with_backoff fnAuth =
      (Except.error { isAPIError := false, msg := "PermissionError: access denied" }, 1, 0) := by
  constructor
  · exact (with_backoff_retry_C8 Unit fn429).1 _ rfl (by decide)
  · exact (with_backoff_retry_C8 Unit fnAuth).2.2 _ rfl (by decide)

/-! ## The detached ingredient-linking block (lines 206-245) -/

/-- Lines 207-208: `1 if df.empty else int(pd.to_numeric(df["id"]).max()) + 1`.
`Series.max()` skips NaN; on a non-empty table whose every id failed
numeric coercion it returns NaN and `int(...)` raises `ValueError`. -/
def nextId (ids : List (Option Int)) : Except String Int :=
  match ids with
  | [] => Except.ok 1
  | _ :: _ =>
    match (ids.filterMap (fun x => x)).max? with
    | some m => Except.ok (m + 1)
    | none => Except.error "ValueError: cannot convert float NaN to integer"

/-- The catalog row appended on a lookup miss (lines 215-216 / 223-224). -/
def newIng (next_ing_id : Int) (inci_norm : String) : IngRow :=
  { id := some next_ing_id, inci_name := inci_norm,
    default_function := functionFor inci_norm, cas := "" }

/-- One pass of the linking loop over the Ingredients catalog
(lines 211-226): strip the token, look it up case-insensitively (the
`if not df_ings.empty` guard is subsumed by filtering the empty list); on
a miss — or a first match whose `id` is NaN (`pd.notna` fails) — append a
fresh catalog row; return the updated catalog, the ingredient id chosen
for the join row, and the next fresh id. -/
def processToken (ings : List IngRow) (next_ing_id : Int) (inci : String) :
    List IngRow × Option Int × Int :=
  match ings.filter (fun r => pyLower r.inci_name == pyLower (pyStrip inci)) with
  | [] => (ings ++ [newIng next_ing_id (pyStrip inci)], some next_ing_id, next_ing_id + 1)
  | r :: _ =>
    match r.id with
    | some m => (ings, some m, next_ing_id)
    | none => (ings ++ [newIng next_ing_id (pyStrip inci)], some next_ing_id, next_ing_id + 1)

/-- How the linking block can abort: `ValueError` from the next-id
computation (line 207-208), or `NameError` from reading the unbound
`next_pid` in the join-row literal (line 230). -/
inductive LinkErr where
  | valueError : LinkErr
  | nameError : LinkErr
deriving Repr, DecidableEq

/-- The `for inci in tokens:` loop (lines 210-241).  Each iteration first
runs the catalog lookup/append (lines 211-226) and then evaluates the
join-row dict (lines 228-236), whose `"product_id": next_pid` entry reads
the free variable `next_pid` of the loop; the loop is parameterized by that
binding of that variable (`none` = unbound, raising `NameError` before any
join-row append). -/
def linkLoop (next_pid? : Option Int) :
    List String → Int → Int → List IngRow → List PIRow →
      List IngRow × List PIRow × Option LinkErr
  | [], _, _, ings, pi => (ings, pi, none)
  | inci :: rest, next_ing_id, next_pi_id, ings, pi =>
    match processToken ings next_ing_id inci, next_pid? with
    | (ings2, _, _), none => (ings2, pi, some LinkErr.nameError)
    | (ings2, ing_id, nid2), some pid =>
      let row : PIRow :=
        { id := some next_pi_id, product_id := some pid, ingredient_id := ing_id,
          inci_name_raw := pyStrip inci, function_override := "",
          percentage := "", notes := "" }
      linkLoop next_pid? rest nid2 (next_pi_id + 1) ings2 (pi ++ [row])

/-- Result of running the linking block: the two tables it touches, how it
aborted (if it did), and — had it completed — the cache clear and success
message of lines 244-245. -/
structure LinkOutcome where
  ings : List IngRow
  pi : List PIRow
  error : Option LinkErr
  cacheCleared : Bool
  message : Option String
deriving Repr, DecidableEq

/-- The whole detached block (lines 206-245): compute the two next ids,
run the linking loop, and on normal completion clear the cache and report
success.  (In the program this block sits inside the first
`except Exception` suite of the save handler, after line 202, so the save
path never reaches it.) -/
def runLinkingBlock (next_pid? : Option Int) (ings : List IngRow)
    (pi : List PIRow) (prod_name : String) (tokens : List String) :
    LinkOutcome :=
  match nextId (ings.map IngRow.id) with
  | Except.error _ =>
    { ings := ings, pi := pi, error := some LinkErr.valueError,
      cacheCleared := false, message := none }
  | Except.ok next_ing_id =>
    match nextId (pi.map PIRow.id) with
    | Except.error _ =>
      { ings := ings, pi := pi, error := some LinkErr.valueError,
        cacheCleared := false, message := none }
    | Except.ok next_pi_id =>
      match linkLoop next_pid? tokens next_ing_id next_pi_id ings pi with
      | (ings2, pi2, some err) =>
        { ings := ings2, pi := pi2, error := some err,
          cacheCleared := false, message := none }
      | (ings2, pi2, none) =>
        { ings := ings2, pi := pi2, error := none, cacheCleared := true,
          message := some (successMessage prod_name tokens.length) }

/-- The linking block as it stands in the program: `next_pid` is bound
nowhere (its only occurrences are the reads at lines 230 and 238), so the
block runs with that name undefined. -/
def linkingBlock : List IngRow → List PIRow → String → List String → LinkOutcome :=
  runLinkingBlock none

/-! ## Claim theorems: C9, C3, C7, C10 -/

/-- Claim C9: the join-row append reads `next_pid`, which is bound nowhere
in the program, so the linking block executed on any non-empty token list
aborts before completing — with the undefined-name error whenever the
next-id computations themselves succeed — and appends no
Product_Ingredients row; and no code path appends a row to Products (the
save handler returns it unchanged), so no join row can carry the id of a
Products row created in the same submission. -/
theorem linking_block_name_error_C9 :
    (∀ (ings : List IngRow) (pi : List PIRow) (prod_name : String)
       (tokens : List String), tokens ≠ [] →
       (linkingBlock ings pi prod_name tokens).error.isSome = true ∧
       (linkingBlock ings pi prod_name tokens).pi = pi ∧
       ((nextId (ings.map IngRow.id)).isOk = true →
        (nextId (pi.map PIRow.id)).isOk = true →
        (linkingBlock ings pi prod_name tokens).error = some LinkErr.nameError)) ∧
    (∀ (brands : List BrandRow) (products : List ProductRow)
       (ings : List IngRow) (pi : List PIRow)
       (brand_name prod_name prod_cat prod_type prod_notes inci_raw : String),
       (saveHandler brands products ings pi brand_name prod_name prod_cat
         prod_type prod_notes inci_raw).products = products) := by
  constructor
  · intro ings pi prod_name tokens htok
    obtain ⟨t, rest, rfl⟩ : ∃ t rest, tokens = t :: rest := by
      cases tokens with
      | nil => exact absurd rfl htok
      | cons a b => exact ⟨a, b, rfl⟩
    unfold linkingBlock runLinkingBlock
    cases h1 : nextId (ings.map IngRow.id) with
    | error s => simp [h1, Except.isOk, Except.toBool]
    | ok next_ing_id =>
      cases h2 : nextId (pi.map PIRow.id) with
      | error s => simp [h1, h2, Except.isOk, Except.toBool]
      | ok next_pi_id =>
        simp [h1, h2, linkLoop]
  · intro brands products ings pi a b c d e f
    rfl

/-- Witness for claim C9: on an empty catalog and join table with the
single token `"Aqua"`, the block aborts with the `NameError` and the join
table stays empty. -/
theorem linking_block_name_error_witness_C9 :
    (linkingBlock [] [] "X" ["Aqua"]).error = some LinkErr.nameError ∧
    (linkingBlock [] [] "X" ["Aqua"]).pi = [] := by
  have h := linking_block_name_error_C9.1 [] [] "X" ["Aqua"] (by decide)
  exact ⟨h.2.2 (by decide) (by decide), h.2.1⟩

/-- Ingredients catalog for the claim C3 counterexample: `"aqua"` exists
but its id cell failed numeric coercion (NaN). -/
def ingsC3 : List IngRow :=
  [{ id := some 1, inci_name := "water", default_function := "Solvent", cas := "" },
   { id := none, inci_name := "aqua", default_function := "", cas := "" }]

/-- Counterexample to claim C3 as stated: `"Aqua"` matches the existing
catalog row `"aqua"` case-insensitively, yet processing the token appends
a new Ingredients row, because the id of the matched row is NaN and the
`pd.notna` branch (lines 221-226) creates a fresh row. -/
theorem processToken_nan_id_counterexample_C3 :
    (∃ r ∈ ingsC3, pyLower r.inci_name = pyLower (pyStrip "Aqua")) ∧
    (processToken ingsC3 2 "Aqua").1 =
      ingsC3 ++ [{ id := some 2, inci_name := "Aqua",
                   default_function := "Solvent", cas := "" }] := by
  constructor
  · exact ⟨{ id := none, inci_name := "aqua", default_function := "", cas := "" },
      by decide, by decide⟩
  · decide

/-- Claim C3 as amended: for every token whose stripped name matches an
existing Ingredients row case-insensitively, *provided the first matching
matched row carries a numeric id* (not NaN), processing the token leaves the catalog
unchanged and reuses that id. -/
theorem processToken_reuse_amended_C3 :
    ∀ (ings : List IngRow) (next_ing_id : Int) (inci : String) (r : IngRow) (m : Int),
      (ings.filter (fun x => pyLower x.inci_name == pyLower (pyStrip inci))).head? = some r →
      r.id = some m →
      processToken ings next_ing_id inci = (ings, some m, next_ing_id) := by
  intro ings next_ing_id inci r m hmatch hid
  unfold processToken
  cases h : ings.filter (fun x => pyLower x.inci_name == pyLower (pyStrip inci)) with
  | nil => rw [h] at hmatch; exact absurd hmatch (by simp)
  | cons r0 t =>
    rw [h] at hmatch
    simp only [List.head?_cons, Option.some.injEq] at hmatch
    subst hmatch
    simp [hid]

/-- Ingredients catalog for the claim C3 witness: `"aqua"` exists with the
numeric id 5. -/
def ingsC3w : List IngRow :=
  [{ id := some 5, inci_name := "aqua", default_function := "Solvent", cas := "" }]

/-- Witness for the amended claim C3: submitting `"Aqua"` when `"aqua"`
exists with id 5 leaves the catalog unchanged and reuses id 5. -/
theorem processToken_reuse_witness_C3 :
    (ingsC3w.filter (fun x => pyLower x.inci_name == pyLower (pyStrip "Aqua"))).head? =
      some { id := some 5, inci_name := "aqua", default_function := "Solvent", cas := "" } ∧
    processToken ingsC3w 7 "Aqua" = (ingsC3w, some 5, 7) :=
  ⟨by decide,
   processToken_reuse_amended_C3 ingsC3w 7 "Aqua"
     { id := some 5, inci_name := "aqua", default_function := "Solvent", cas := "" }
     5 (by decide) rfl⟩

/-- Ingredients catalog for the claim C7 evaluation: `"glycerin"` with
default function `"Humectant"` and id 1. -/
def ingsC7 : List IngRow :=
  [{ id := some 1, inci_name := "glycerin", default_function := "Humectant", cas := "" }]

/-- Claim C7 evaluated on the code (code bug): with `"glycerin"` in the
catalog, submitting `"Glycerin, Aqua"` is claimed to create one new
Ingredients row and two join rows.  The executed save handler appends
nothing, and even the detached linking block, run on those tokens, aborts
with the `NameError` on the unbound `next_pid` while handling the first
token — appending no Ingredients row (glycerin matched) and no join row. -/
theorem linking_dead_code_eval_C7 :
    splitTokens "Glycerin, Aqua" = ["Glycerin", "Aqua"] ∧
    (saveHandler [] [] ingsC7 [] "B" "X" "Skincare" "Serum" "" "Glycerin, Aqua").ings = ingsC7 ∧
    (saveHandler [] [] ingsC7 [] "B" "X" "Skincare" "Serum" "" "Glycerin, Aqua").pi = [] ∧
    linkingBlock ingsC7 [] "X" ["Glycerin", "Aqua"] =
      { ings := ingsC7, pi := [], error := some LinkErr.nameError,
        cacheCleared := false, message := none } := by
  refine ⟨by decide, rfl, rfl, by decide⟩

/-- Claim C10 evaluated on the code (code bug): the token list
`["Aqua", "aqua"]` (from pasting the same name twice) is claimed to yield
one new Ingredients row and two join rows sharing its id; the linking
block in fact appends the one catalog row and then aborts with the
`NameError` on the unbound `next_pid`, appending zero join rows and never
reaching the second token. -/
theorem linking_no_join_rows_eval_C10 :
    linkingBlock [] [] "X" ["Aqua", "aqua"] =
      { ings := [{ id := some 1, inci_name := "Aqua",
                   default_function := "Solvent", cas := "" }],
        pi := [], error := some LinkErr.nameError,
        cacheCleared := false, message := none } := by
  decide

/-! ## Claim C6: tokenization -/

/-- `dropWhile` is idempotent. -/
theorem dropWhile_dropWhile_eq {α : Type} (p : α → Bool) (l : List α) :
    (l.dropWhile p).dropWhile p = l.dropWhile p := by
  induction l with
  | nil => rfl
  | cons c t ih =>
    cases h : p c with
    | true => simp [List.dropWhile_cons, h, ih]
    | false => simp [List.dropWhile_cons, h]

/-- A prefix of a list that `dropWhile` leaves whole is itself left whole. -/
theorem dropWhile_eq_self_of_leading {α : Type} (p : α → Bool) {l1 l2 : List α}
    (hpre : l1 <+: l2) (h2 : l2.dropWhile p = l2) : l1.dropWhile p = l1 := by
  cases l1 with
  | nil => rfl
  | cons a t =>
    obtain ⟨r, hr⟩ := hpre
    rw [← hr] at h2
    cases h : p a with
    | false => simp [List.dropWhile_cons, h]
    | true =>
      exfalso
      rw [List.cons_append, List.dropWhile_cons, if_pos (by rw [h])] at h2
      have hlen := congrArg List.length h2
      have hle := ((List.dropWhile_suffix (l := t ++ r) p).sublist).length_le
      rw [List.length_cons] at hlen
      omega

/-- Stripping is idempotent. -/
theorem pyStripList_idem (l : List Char) : pyStripList (pyStripList l) = pyStripList l := by
  have hA : (l.dropWhile isPyWS).dropWhile isPyWS = l.dropWhile isPyWS :=
    dropWhile_dropWhile_eq _ _
  have hsuf : (l.dropWhile isPyWS).reverse.dropWhile isPyWS <:+ (l.dropWhile isPyWS).reverse :=
    List.dropWhile_suffix _
  have hpre : ((l.dropWhile isPyWS).reverse.dropWhile isPyWS).reverse <+: l.dropWhile isPyWS := by
    obtain ⟨u, hu⟩ := hsuf
    refine ⟨u.reverse, ?_⟩
    have h := congrArg List.reverse hu
    simpa [List.reverse_append] using h
  have h1 := dropWhile_eq_self_of_leading isPyWS hpre hA
  have h2 : ((l.dropWhile isPyWS).reverse.dropWhile isPyWS).dropWhile isPyWS
      = (l.dropWhile isPyWS).reverse.dropWhile isPyWS := dropWhile_dropWhile_eq _ _
  unfold pyStripList
  rw [h1, List.reverse_reverse, h2]

/-- A non-empty character list does not build the empty string. -/
theorem mk_cons_ne_empty (c : Char) (cs : List Char) : String.mk (c :: cs) ≠ "" := by
  intro h
  have hd : (String.mk (c :: cs)).data = String.data "" := congrArg String.data h
  simp at hd

/-- Strip-then-drop-empties over a list of pieces, rewritten as map then
filter. -/
theorem filterMap_strip_eq (l : List (List Char)) :
    l.filterMap (fun part =>
        if (pyStripList part).isEmpty then none else some (String.mk (pyStripList part))) =
      (l.map (fun p => String.mk (pyStripList p))).filter (fun t => !(t == "")) := by
  induction l with
  | nil => rfl
  | cons part rest ih =>
    simp only [List.isEmpty_iff] at ih
    simp only [List.filterMap_cons, List.map_cons, List.filter_cons]
    cases h : pyStripList part with
    | nil =>
      simp [ih]
    | cons c cs =>
      simp [mk_cons_ne_empty c cs, ih]

/-- Claim C6: tokenization splits the raw text on commas and newlines
(carriage returns first normalized to newlines), strips each piece, and
discards empty pieces — the token list is exactly the in-order pieces,
each stripped, with the empties filtered out, and every token it yields
is non-empty and carries no surrounding whitespace. -/
theorem splitTokens_spec_C6 :
    ∀ inci_raw : String,
      splitTokens inci_raw =
        ((rawPieces inci_raw).map (fun p => String.mk (pyStripList p))).filter
          (fun t => !(t == "")) ∧
      ∀ t ∈ splitTokens inci_raw, t ≠ "" ∧ pyStrip t = t := by
  intro s
  have hmain : splitTokens s =
      ((rawPieces s).map (fun p => String.mk (pyStripList p))).filter (fun t => !(t == "")) := by
    unfold splitTokens rawPieces
    rw [List.map_flatMap, List.filter_flatMap]
    congr 1
    funext line
    exact filterMap_strip_eq _
  refine ⟨hmain, ?_⟩
  intro t ht
  rw [hmain, List.mem_filter] at ht
  obtain ⟨htm, htq⟩ := ht
  constructor
  · intro hteq
    rw [hteq] at htq
    exact absurd htq (by decide)
  · rw [List.mem_map] at htm
    obtain ⟨p, _, rfl⟩ := htm
    show String.mk (pyStripList (String.mk (pyStripList p)).data) = String.mk (pyStripList p)
    rw [show (String.mk (pyStripList p)).data = pyStripList p from rfl, pyStripList_idem]

/-- Witness for claim C6 on a concrete paste mixing commas, a CRLF line
break, surrounding blanks and an all-blank piece. -/
theorem splitTokens_spec_witness_C6 :
    splitTokens "Aqua, ,\r\nGlycerin " = ["Aqua", "Glycerin"] ∧
    ("Aqua" ≠ "" ∧ pyStrip "Aqua" = "Aqua") := by
  refine ⟨by decide, (splitTokens_spec_C6 "Aqua, ,\r\nGlycerin ").2 "Aqua" (by decide)⟩

/-! ## Frequency aggregation (lines 281-288) -/

/-- Merge-key equality: pandas `merge` matches keys only when both are
non-null and equal (NaN matches nothing). -/
def keyEq : Option Int → Option Int → Bool
  | some a, some b => a == b
  | _, _ => false

/-- The rows a single `df_pi` row yields in
`df_pi.merge(df_prods, left_on="product_id", right_on="id", how="left")`:
one combined row per matching product, or the row alone (right side NaN)
when nothing matches. -/
def mergeOne (prods : List ProductRow) (r : PIRow) :
    List (PIRow × Option ProductRow) :=
  if prods.filter (fun p => keyEq r.product_id p.id) = [] then [(r, none)]
  else (prods.filter (fun p => keyEq r.product_id p.id)).map (fun p => (r, some p))

/-- `fi` (line 281): the left merge of the join table with the products
table, in left-row order. -/
def mergePIProds (pis : List PIRow) (prods : List ProductRow) :
    List (PIRow × Option ProductRow) :=
  pis.flatMap (mergeOne prods)

/-- Lines 282-283: the category / product-type filters on the merged
rows.  A scope selection of `none` is `"(All)"` (no filter); a merged row
whose product side is NaN fails any active filter (NaN equals nothing). -/
def inScope (sel_cat_q sel_ptype_q : Option String)
    (row : PIRow × Option ProductRow) : Bool :=
  (match sel_cat_q, row.2 with
   | none, _ => true
   | some _, none => false
   | some c, some p => p.category == c) &&
  (match sel_ptype_q, row.2 with
   | none, _ => true
   | some _, none => false
   | some t, some p => p.product_type == t)

/-- The merged rows surviving the scope filters. -/
def scopedRows (pis : List PIRow) (prods : List ProductRow)
    (sel_cat_q sel_ptype_q : Option String) :
    List (PIRow × Option ProductRow) :=
  (mergePIProds pis prods).filter (inScope sel_cat_q sel_ptype_q)

/-- The `product_id` values feeding `nunique` for the group of ingredient
`ing` in `fi.groupby("ingredient_id")` (line 285): the in-scope rows of
that ingredient, keeping non-null product ids (`nunique` drops NaN). -/
def productIdsFor (pis : List PIRow) (prods : List ProductRow)
    (sel_cat_q sel_ptype_q : Option String) (ing : Int) : List Int :=
  (((scopedRows pis prods sel_cat_q sel_ptype_q).filter
      (fun row => keyEq row.1.ingredient_id (some ing))).filterMap
    (fun row => row.1.product_id))

/-- `Count=("product_id","nunique")` (line 285) for the group of
ingredient `ing`: the number of distinct non-null product ids among its
in-scope join rows. -/
def freqCount (pis : List PIRow) (prods : List ProductRow)
    (sel_cat_q sel_ptype_q : Option String) (ing : Int) : Nat :=
  (productIdsFor pis prods sel_cat_q sel_ptype_q ing).dedup.length

/-! ## Claim C4 -/

/-- The contribution of one join row to the `nunique` input of ingredient
`ing`: its merged rows, scope-filtered, ingredient-filtered, projected to
the non-null product id. -/
def rowContrib (prods : List ProductRow) (sel_cat_q sel_ptype_q : Option String)
    (ing : Int) (r : PIRow) : List Int :=
  (((mergeOne prods r).filter (inScope sel_cat_q sel_ptype_q)).filter
      (fun row => keyEq row.1.ingredient_id (some ing))).filterMap
    (fun row => row.1.product_id)

/-- The `nunique` input of a group decomposes row by row. -/
theorem productIdsFor_eq_flatMap (pis : List PIRow) (prods : List ProductRow)
    (sel_cat_q sel_ptype_q : Option String) (ing : Int) :
    productIdsFor pis prods sel_cat_q sel_ptype_q ing =
      pis.flatMap (rowContrib prods sel_cat_q sel_ptype_q ing) := by
  unfold productIdsFor scopedRows mergePIProds rowContrib
  rw [List.filter_flatMap, List.filter_flatMap, List.filterMap_flatMap]

/-- `inScope` on a merge-miss row ignores the left side. -/
theorem inScope_pair_none (sc sp : Option String) (r1 r2 : PIRow) :
    inScope sc sp (r1, none) = inScope sc sp (r2, none) := by
  cases sc <;> cases sp <;> rfl

/-- `inScope` on a matched row only reads the product side. -/
theorem inScope_pair_some (sc sp : Option String) (r1 r2 : PIRow) (p : ProductRow) :
    inScope sc sp (r1, some p) = inScope sc sp (r2, some p) := by
  cases sc <;> cases sp <;> rfl

/-- The scope test on the product side alone. -/
def inScopeProd (sc sp : Option String) (p : ProductRow) : Bool :=
  (match sc with
   | none => true
   | some c => p.category == c) &&
  (match sp with
   | none => true
   | some t => p.product_type == t)

/-- On a matched merge row the scope test reads only the product side. -/
theorem inScope_some_eq (sc sp : Option String) (r : PIRow) (p : ProductRow) :
    inScope sc sp (r, some p) = inScopeProd sc sp p := by
  cases sc <;> cases sp <;> rfl

/-- On a merge-miss row the scope test passes only with no filters active. -/
theorem inScope_none_eq (sc sp : Option String) (r : PIRow) :
    inScope sc sp (r, none) = (sc.isNone && sp.isNone) := by
  cases sc <;> cases sp <;> rfl

/-- Closed form of the per-row pipeline on a merge miss. -/
theorem contrib_none_closed (sc sp : Option String) (ing : Int) (r : PIRow) :
    (([((r : PIRow), (none : Option ProductRow))].filter (inScope sc sp)).filter
        (fun row => keyEq row.1.ingredient_id (some ing))).filterMap
      (fun row => row.1.product_id) =
      if (sc.isNone && sp.isNone) && keyEq r.ingredient_id (some ing) then
        (match r.product_id with
         | some v => [v]
         | none => [])
      else [] := by
  have h1 : [((r : PIRow), (none : Option ProductRow))].filter (inScope sc sp) =
      if sc.isNone && sp.isNone then [(r, none)] else [] := by
    rw [List.filter_cons, List.filter_nil, inScope_none_eq]
  rw [h1]
  cases hb : sc.isNone && sp.isNone with
  | false => simp
  | true =>
    cases hky : keyEq r.ingredient_id (some ing) <;>
      cases hpd : r.product_id <;>
        simp [List.filter_cons, hky, hpd]

/-- Closed form of the per-row pipeline on merge matches. -/
theorem contrib_some_closed (sc sp : Option String) (ing : Int) (r : PIRow)
    (ms : List ProductRow) :
    (((ms.map (fun p => ((r : PIRow), some p))).filter (inScope sc sp)).filter
        (fun row => keyEq row.1.ingredient_id (some ing))).filterMap
      (fun row => row.1.product_id) =
      if keyEq r.ingredient_id (some ing) then
        (ms.filter (inScopeProd sc sp)).filterMap (fun _ => r.product_id)
      else [] := by
  induction ms with
  | nil => cases hky : keyEq r.ingredient_id (some ing) <;> simp [hky]
  | cons p ps ih =>
    simp only [List.map_cons, List.filter_cons, inScope_some_eq]
    cases hsp : inScopeProd sc sp p with
    | false =>
      simp only [Bool.false_eq_true, if_false]
      exact ih
    | true =>
      simp only [if_true, eq_self_iff_true]
      simp only [List.filter_cons]
      cases hky : keyEq r.ingredient_id (some ing) with
      | false =>
        rw [hky] at ih
        simp only [Bool.false_eq_true, if_false] at ih ⊢
        exact ih
      | true =>
        rw [hky] at ih
        simp only [if_true, eq_self_iff_true] at ih ⊢
        simp only [List.filterMap_cons]
        cases hpd : r.product_id with
        | none =>
          rw [hpd] at ih
          simpa using ih
        | some v =>
          rw [hpd] at ih
          simp only [hpd]
          simpa using congrArg (fun l => v :: l) ih

/-- The contribution of a join row depends only on its `product_id` and
`ingredient_id`. -/
theorem rowContrib_congr (prods : List ProductRow)
    (sel_cat_q sel_ptype_q : Option String) (ing : Int) (r1 r2 : PIRow)
    (hp : r1.product_id = r2.product_id) (hi : r1.ingredient_id = r2.ingredient_id) :
    rowContrib prods sel_cat_q sel_ptype_q ing r1 =
      rowContrib prods sel_cat_q sel_ptype_q ing r2 := by
  unfold rowContrib mergeOne
  rw [hp]
  split_ifs with hms
  · rw [contrib_none_closed, contrib_none_closed, hp, hi]
  · rw [contrib_some_closed, contrib_some_closed, hp, hi]

/-- Claim C4: for every join-table and product-table state and scope, the
frequency aggregation assigns ingredient `ing` the number of *distinct*
products referencing it in scope (the count is the cardinality of the set
of its in-scope product ids), and a second join row carrying the same
`product_id` and `ingredient_id` as an existing one — the same ingredient
listed again for the same product — leaves the count unchanged. -/
theorem freqCount_distinct_C4 :
    ∀ (pis : List PIRow) (prods : List ProductRow)
      (sel_cat_q sel_ptype_q : Option String) (ing : Int),
      freqCount pis prods sel_cat_q sel_ptype_q ing =
        (productIdsFor pis prods sel_cat_q sel_ptype_q ing).toFinset.card ∧
      ∀ r1 r2 : PIRow, r1.product_id = r2.product_id →
        r1.ingredient_id = r2.ingredient_id →
        freqCount (r1 :: r2 :: pis) prods sel_cat_q sel_ptype_q ing =
          freqCount (r2 :: pis) prods sel_cat_q sel_ptype_q ing := by
  intro pis prods sel_cat_q sel_ptype_q ing
  constructor
  · exact (List.card_toFinset _).symm
  · intro r1 r2 hp hi
    unfold freqCount
    rw [← List.card_toFinset, ← List.card_toFinset]
    rw [productIdsFor_eq_flatMap, productIdsFor_eq_flatMap]
    simp only [List.flatMap_cons]
    rw [rowContrib_congr prods sel_cat_q sel_ptype_q ing r1 r2 hp hi]
    simp only [List.toFinset_append]
    rw [← Finset.union_assoc, Finset.union_self]

/-- Products table for the claim C4 witness. -/
def prodsC4 : List ProductRow :=
  [{ id := some 1, brand_id := some 1, product_name := "X",
     category := "Bodycare", product_type := "Body Wash", notes := "" }]

/-- First join row of the claim C4 witness: product 1 lists ingredient 10
(as `"Aqua"`). -/
def piRowA : PIRow :=
  { id := some 1, product_id := some 1, ingredient_id := some 10,
    inci_name_raw := "Aqua", function_override := "", percentage := "", notes := "" }

/-- Second join row of the claim C4 witness: the same product lists the
same ingredient again (pasted as `"aqua"`, distinct row id). -/
def piRowB : PIRow :=
  { id := some 2, product_id := some 1, ingredient_id := some 10,
    inci_name_raw := "aqua", function_override := "", percentage := "", notes := "" }

/-- Witness for claim C4: the duplicate listing leaves the count of
ingredient 10 unchanged, and that count is 1, not 2. -/
theorem freqCount_distinct_witness_C4 :
    freqCount [piRowA, piRowB] prodsC4 none none 10 =
      freqCount [piRowB] prodsC4 none none 10 ∧
    freqCount [piRowA, piRowB] prodsC4 none none 10 = 1 := by
  constructor
  · exact (freqCount_distinct_C4 [] prodsC4 none none 10).2 piRowA piRowB rfl rfl
  · decide

/-! ## The frequency table and its sort (lines 285-288) -/

/-- A row of the displayed frequency table
(`freq[["inci_name","default_function","Count"]]`); the name and function
are NaN (`none`) when the ingredient id of the group is absent from the
Ingredients tab (left-merge miss at line 286). -/
structure FreqRow where
  inci_name : Option String
  default_function : Option String
  Count : Nat
deriving Repr, DecidableEq

/-- The group keys of `fi.groupby("ingredient_id")` (line 285): the
distinct non-null ingredient ids of the in-scope rows, in the ascending
order pandas emits groups. -/
def groupKeys (pis : List PIRow) (prods : List ProductRow)
    (sel_cat_q sel_ptype_q : Option String) : List Int :=
  List.insertionSort (fun a b => a ≤ b)
    (((scopedRows pis prods sel_cat_q sel_ptype_q).filterMap
        (fun row => row.1.ingredient_id)).dedup)

/-- Lines 285-287 before the sort: one row per group key, left-merged
with the Ingredients tab (every matching catalog row, or a NaN row when
none matches), carrying the distinct-product count of the group. -/
def freqTable (ings : List IngRow) (pis : List PIRow) (prods : List ProductRow)
    (sel_cat_q sel_ptype_q : Option String) : List FreqRow :=
  (groupKeys pis prods sel_cat_q sel_ptype_q).flatMap (fun k =>
    if ings.filter (fun r => keyEq r.id (some k)) = [] then
      [{ inci_name := none, default_function := none,
         Count := freqCount pis prods sel_cat_q sel_ptype_q k }]
    else
      (ings.filter (fun r => keyEq r.id (some k))).map (fun r =>
        { inci_name := some r.inci_name, default_function := some r.default_function,
          Count := freqCount pis prods sel_cat_q sel_ptype_q k }))

/-- Name order of the second sort key: ascending lexicographic, with NaN
names placed last (pandas default na_position). -/
def nameLe (x y : Option String) : Bool :=
  match x, y with
  | some a, some b => listLe a.data b.data
  | some _, none => true
  | none, some _ => false
  | none, none => true

/-- The comparator of `sort_values(["Count","inci_name"],
ascending=[False,True])`: count descending, then name ascending. -/
def freqLe (a b : FreqRow) : Bool :=
  decide (b.Count < a.Count) || (decide (a.Count = b.Count) && nameLe a.inci_name b.inci_name)

/-- `freqLe` as a relation. -/
def FreqLE (a b : FreqRow) : Prop := freqLe a b = true

instance : DecidableRel FreqLE := fun a b => by
  unfold FreqLE
  exact inferInstance

/-- One step of the lexicographic character order. -/
theorem listLe_cons_iff (a b : Char) (as bs : List Char) :
    listLe (a :: as) (b :: bs) = true ↔
      (a.toNat < b.toNat ∨ (a.toNat = b.toNat ∧ listLe as bs = true)) := by
  simp only [listLe]
  split_ifs with h1 h2
  · simp [h1]
  · simp only [Bool.false_eq_true, false_iff]
    intro h
    rcases h with h | ⟨h, _⟩ <;> omega
  · constructor
    · intro h
      exact Or.inr ⟨by omega, h⟩
    · intro h
      rcases h with h | ⟨_, h⟩
      · omega
      · exact h

/-- The lexicographic character order is total. -/
theorem listLe_total : ∀ l m : List Char, listLe l m = true ∨ listLe m l = true := by
  intro l
  induction l with
  | nil => intro m; exact Or.inl rfl
  | cons x xs ih =>
    intro m
    cases m with
    | nil => exact Or.inr rfl
    | cons y ys =>
      rcases Nat.lt_trichotomy x.toNat y.toNat with h | h | h
      · exact Or.inl ((listLe_cons_iff x y xs ys).mpr (Or.inl h))
      · rcases ih ys with hr | hr
        · exact Or.inl ((listLe_cons_iff x y xs ys).mpr (Or.inr ⟨h, hr⟩))
        · exact Or.inr ((listLe_cons_iff y x ys xs).mpr (Or.inr ⟨h.symm, hr⟩))
      · exact Or.inr ((listLe_cons_iff y x ys xs).mpr (Or.inl h))

/-- The lexicographic character order is transitive. -/
theorem listLe_trans : ∀ l m n : List Char,
    listLe l m = true → listLe m n = true → listLe l n = true := by
  intro l
  induction l with
  | nil => intro m n _ _; rfl
  | cons x xs ih =>
    intro m n h1 h2
    cases m with
    | nil => exact absurd h1 (by simp [listLe])
    | cons y ys =>
      cases n with
      | nil => exact absurd h2 (by simp [listLe])
      | cons z zs =>
        rw [listLe_cons_iff] at h1 h2 ⊢
        rcases h1 with h1 | ⟨h1e, h1r⟩ <;> rcases h2 with h2 | ⟨h2e, h2r⟩
        · exact Or.inl (by omega)
        · exact Or.inl (by omega)
        · exact Or.inl (by omega)
        · exact Or.inr ⟨by omega, ih ys zs h1r h2r⟩

/-- The name order is total. -/
theorem nameLe_total : ∀ x y : Option String, nameLe x y = true ∨ nameLe y x = true := by
  intro x y
  cases x with
  | none => cases y with
    | none => exact Or.inl rfl
    | some b => exact Or.inr rfl
  | some a => cases y with
    | none => exact Or.inl rfl
    | some b => exact listLe_total a.data b.data

/-- The name order is transitive. -/
theorem nameLe_trans : ∀ x y z : Option String,
    nameLe x y = true → nameLe y z = true → nameLe x z = true := by
  intro x y z h1 h2
  cases x <;> cases y <;> cases z <;> simp [nameLe] at h1 h2 ⊢
  exact listLe_trans _ _ _ h1 h2

instance : IsTotal FreqRow FreqLE := by
  constructor
  intro a b
  unfold FreqLE freqLe
  rcases Nat.lt_trichotomy a.Count b.Count with h | h | h
  · right; simp [h]
  · rcases nameLe_total a.inci_name b.inci_name with hn | hn
    · left; simp [h, hn]
    · right; simp [h, hn]
  · left; simp [h]

instance : IsTrans FreqRow FreqLE := by
  constructor
  intro a b c hab hbc
  unfold FreqLE freqLe at hab hbc ⊢
  simp only [Bool.or_eq_true, decide_eq_true_eq, Bool.and_eq_true] at hab hbc ⊢
  rcases hab with h1 | ⟨h1e, h1n⟩ <;> rcases hbc with h2 | ⟨h2e, h2n⟩
  · exact Or.inl (by omega)
  · exact Or.inl (by omega)
  · exact Or.inl (by omega)
  · exact Or.inr ⟨by omega, nameLe_trans _ _ _ h1n h2n⟩

/-- The `sort_values` call of line 287: sort the frequency rows by the comparator
(any correct sorting algorithm yields a list ordered by it). -/
def sortFreq (rows : List FreqRow) : List FreqRow := List.insertionSort FreqLE rows

/-- The displayed frequency table (lines 285-288). -/
def freq (ings : List IngRow) (pis : List PIRow) (prods : List ProductRow)
    (sel_cat_q sel_ptype_q : Option String) : List FreqRow :=
  sortFreq (freqTable ings pis prods sel_cat_q sel_ptype_q)

/-- Claim C5: in the displayed frequency table, counts are descending,
and any two rows with equal counts are ordered by name ascending (NaN
names last). -/
theorem freq_sorted_C5 :
    ∀ (ings : List IngRow) (pis : List PIRow) (prods : List ProductRow)
      (sel_cat_q sel_ptype_q : Option String),
      (freq ings pis prods sel_cat_q sel_ptype_q).Pairwise
        (fun a b => b.Count ≤ a.Count ∧
          (a.Count = b.Count → nameLe a.inci_name b.inci_name = true)) := by
  intro ings pis prods sel_cat_q sel_ptype_q
  have h : List.Sorted FreqLE (freq ings pis prods sel_cat_q sel_ptype_q) :=
    List.sorted_insertionSort FreqLE (freqTable ings pis prods sel_cat_q sel_ptype_q)
  refine List.Pairwise.imp ?_ h
  intro a b hab
  unfold FreqLE freqLe at hab
  simp only [Bool.or_eq_true, decide_eq_true_eq, Bool.and_eq_true] at hab
  rcases hab with h1 | ⟨h1, h2⟩
  · exact ⟨Nat.le_of_lt h1, fun hc => absurd h1 (by omega)⟩
  · exact ⟨Nat.le_of_eq h1.symm, fun _ => h2⟩
